import Mathlib

/-!
Formal model of the `morph-nft` tutorial repository.

The repository consists of:
* the Solidity contract `MorphNFT` (an ERC721URIStorage + Ownable subclass
  with a `tokenCounter` and a single `createNFT` function), given in
  `README.md` and in the tutorial text;
* the hardhat client scripts `scripts/deploy.js` and `scripts/mint.js`;
* the React viewer `morph-nft-frontend/src/App.js`.

The contract storage is modelled with association lists for the two
mappings (`_owners` of ERC721 and `_tokenURIs` of ERC721URIStorage),
`Nat` for `uint256` with the `2 ^ 256` bound made explicit where Solidity
0.8 checked arithmetic can revert, and `Except` for EVM reverts (an
`Except.error` result of a transaction means the whole call rolled back).
The client scripts and the viewer are modelled as lists of the atomic
actions their code performs, with JS async/await failure propagation made
explicit.
-/

namespace MorphNft

/-- Account identifiers (EVM addresses); the zero address is `0`. -/
abbrev Address := Nat

/-- The modulus of Solidity's `uint256`. -/
def UINT256_MOD : Nat := 2 ^ 256

/-- Revert reasons of the contract calls. -/
inductive Err where
  /-- `Ownable`: the `onlyOwner` modifier rejected the caller. -/
  | Authorization
  /-- ERC721: query about a token that was never minted. -/
  | NotFound
  /-- ERC721 `_mint`: minting to the zero address reverts. -/
  | InvalidReceiver
  /-- ERC721 `_mint`: the token identifier is already minted. -/
  | AlreadyMinted
  /-- Solidity 0.8 checked arithmetic overflow (panic 0x11). -/
  | Overflow
deriving DecidableEq, Repr

/-- Storage of the `MorphNFT` contract: the `Ownable` owner slot, the
`uint256 public tokenCounter`, the ERC721 owner mapping and the
ERC721URIStorage URI mapping. The mappings are association lists whose
`lookup` returns the most recent binding of a key. -/
structure MorphNFT where
  owner : Address
  tokenCounter : Nat
  tokens : List (Nat × Address)
  tokenURIs : List (Nat × String)
deriving DecidableEq, Repr

/-- Deployment: the `Ownable` constructor records the deployer as `owner`;
the `MorphNFT` constructor body sets `tokenCounter = 0`; both mappings are
empty. -/
def deployMorphNFT (deployer : Address) : MorphNFT :=
  { owner := deployer, tokenCounter := 0, tokens := [], tokenURIs := [] }

/-- Storage effect of OpenZeppelin `_safeMint(to, tokenId)`: reverts when
`to` is the zero address or when `tokenId` is already minted, otherwise
records `to` as the owner of `tokenId`. -/
def _safeMint (s : MorphNFT) (recipient : Address) (tokenId : Nat) : Except Err MorphNFT :=
  if recipient = 0 then .error .InvalidReceiver
  else if (s.tokens.lookup tokenId).isSome then .error .AlreadyMinted
  else .ok { s with tokens := (tokenId, recipient) :: s.tokens }

/-- OpenZeppelin `ERC721URIStorage._setTokenURI(tokenId, uri)`: requires
the token to exist, then stores the URI for it. -/
def _setTokenURI (s : MorphNFT) (tokenId : Nat) (uri : String) : Except Err MorphNFT :=
  if (s.tokens.lookup tokenId).isSome then
    .ok { s with tokenURIs := (tokenId, uri) :: s.tokenURIs }
  else .error .NotFound

/-- `createNFT(string memory tokenURI) public onlyOwner returns (uint256)`:
the `onlyOwner` modifier first rejects any caller other than `owner`; the
body reads `newItemId = tokenCounter`, calls `_safeMint(msg.sender,
newItemId)` and `_setTokenURI(newItemId, tokenURI)`, increments
`tokenCounter` by 1 with checked arithmetic, and returns `newItemId`.
An `Except.error` models a revert of the whole call. -/
def createNFT (s : MorphNFT) (caller : Address) (uri : String) :
    Except Err (Nat × MorphNFT) :=
  if caller = s.owner then
    match _safeMint s caller s.tokenCounter with
    | .error e => .error e
    | .ok s₁ =>
      match _setTokenURI s₁ s.tokenCounter uri with
      | .error e => .error e
      | .ok s₂ =>
        if s₂.tokenCounter + 1 < UINT256_MOD then
          .ok (s.tokenCounter, { s₂ with tokenCounter := s₂.tokenCounter + 1 })
        else .error .Overflow
  else .error .Authorization

/-- `ownerOf(tokenId)` (ERC721; the spec's `readOwnerOf`): returns the
recorded owner, reverting with NotFound for a token that was never
minted. A pure read with no storage effect. -/
def ownerOf (s : MorphNFT) (tokenId : Nat) : Except Err Address :=
  match s.tokens.lookup tokenId with
  | some a => .ok a
  | none => .error .NotFound

/-- `tokenURI(tokenId)` (ERC721URIStorage; the spec's
`readMetadataPointer`): requires the token to exist, then returns the
stored URI (the base URI of this contract is empty). A pure read with no
storage effect. -/
def tokenURI (s : MorphNFT) (tokenId : Nat) : Except Err String :=
  if (s.tokens.lookup tokenId).isSome then
    .ok ((s.tokenURIs.lookup tokenId).getD "")
  else .error .NotFound

/-- One external `createNFT` transaction against the deployed contract:
EVM transaction semantics, a revert rolls the storage back to the
pre-call state. -/
def tryCreate (s : MorphNFT) (caller : Address) (uri : String) :
    Except Err Nat × MorphNFT :=
  match createNFT s caller uri with
  | .ok (id, s') => (.ok id, s')
  | .error e => (.error e, s)

/-- A `createNFT` call request: the transaction sender and the URI
argument. -/
structure Call where
  caller : Address
  uri : String
deriving DecidableEq, Repr

/-- Run a sequence of `createNFT` transactions against the contract,
collecting the result of each call and the final storage. -/
def runCreates (s : MorphNFT) : List Call → List (Except Err Nat) × MorphNFT
  | [] => ([], s)
  | c :: cs =>
    let (r, s₁) := tryCreate s c.caller c.uri
    let (rs, s₂) := runCreates s₁ cs
    (r :: rs, s₂)

/-- The token identifiers returned by the successful calls, in call
order. -/
def successIds (rs : List (Except Err Nat)) : List Nat :=
  rs.filterMap Except.toOption

/-! Basic lemmas about a single `createNFT` call. -/

/-- A successful `createNFT` call comes from the owner, returns the old
counter value, and its storage effect is exactly: cons the new ownership
entry, cons the new URI entry, increment the counter. -/
theorem createNFT_ok_elim {s : MorphNFT} {c : Address} {u : String} {id : Nat}
    {s' : MorphNFT} (h : createNFT s c u = .ok (id, s')) :
    c = s.owner ∧ id = s.tokenCounter ∧ s.tokenCounter + 1 < UINT256_MOD ∧
    s' = { owner := s.owner, tokenCounter := s.tokenCounter + 1,
           tokens := (s.tokenCounter, c) :: s.tokens,
           tokenURIs := (s.tokenCounter, u) :: s.tokenURIs } := by
  by_cases hc : c = s.owner
  · subst hc
    by_cases h0 : s.owner = 0
    · simp [createNFT, _safeMint, h0] at h
    · by_cases hm : (s.tokens.lookup s.tokenCounter).isSome = true
      · simp [createNFT, _safeMint, h0, hm] at h
      · by_cases hofl : s.tokenCounter + 1 < UINT256_MOD
        · simp [createNFT, _safeMint, _setTokenURI, h0, hm, hofl] at h
          obtain ⟨hid, hs⟩ := h
          exact ⟨rfl, hid.symm, hofl, hs.symm⟩
        · simp [createNFT, _safeMint, _setTokenURI, h0, hm, hofl] at h
  · simp [createNFT, hc] at h

/-- A `createNFT` call from a non-owner reverts with the Authorization
error. -/
theorem createNFT_nonowner {s : MorphNFT} {c : Address} {u : String}
    (h : c ≠ s.owner) : createNFT s c u = .error .Authorization := by
  unfold createNFT
  simp [h]

/-- A `createNFT` transaction either reverts and leaves storage
untouched, or comes from the owner and has exactly the storage effect of
`createNFT_ok_elim`. -/
theorem tryCreate_cases (s : MorphNFT) (c : Address) (u : String) :
    (∃ e, tryCreate s c u = (.error e, s)) ∨
    (c = s.owner ∧
      tryCreate s c u =
        (.ok s.tokenCounter,
          { owner := s.owner, tokenCounter := s.tokenCounter + 1,
            tokens := (s.tokenCounter, c) :: s.tokens,
            tokenURIs := (s.tokenCounter, u) :: s.tokenURIs })) := by
  unfold tryCreate
  cases h : createNFT s c u with
  | error e => exact Or.inl ⟨e, rfl⟩
  | ok p =>
    obtain ⟨id, s'⟩ := p
    obtain ⟨hc, hid, -, hs⟩ := createNFT_ok_elim h
    subst hid hs
    exact Or.inr ⟨hc, rfl⟩

/-! Lemmas about sequences of `createNFT` transactions. -/

/-- Unfolding `runCreates` one transaction at a time. -/
theorem runCreates_cons (s : MorphNFT) (c : Call) (cs : List Call) :
    runCreates s (c :: cs) =
      ((tryCreate s c.caller c.uri).1 ::
          (runCreates (tryCreate s c.caller c.uri).2 cs).1,
        (runCreates (tryCreate s c.caller c.uri).2 cs).2) := rfl

/-- Transactions never change the `owner` slot. -/
theorem runCreates_owner (s : MorphNFT) (calls : List Call) :
    (runCreates s calls).2.owner = s.owner := by
  induction calls generalizing s with
  | nil => rfl
  | cons c cs ih =>
    rw [runCreates_cons]
    rcases tryCreate_cases s c.caller c.uri with ⟨e, he⟩ | ⟨-, hok⟩
    · rw [he]; exact ih s
    · rw [hok]; exact ih _

/-- The identifiers returned by the successful transactions of a batch
count up one by one from the starting counter, and the counter advances
by exactly the number of successes. -/
theorem runCreates_counter_ids (s : MorphNFT) (calls : List Call) :
    successIds (runCreates s calls).1 =
      List.range' s.tokenCounter (successIds (runCreates s calls).1).length ∧
    (runCreates s calls).2.tokenCounter =
      s.tokenCounter + (successIds (runCreates s calls).1).length := by
  induction calls generalizing s with
  | nil => simp [runCreates, successIds]
  | cons c cs ih =>
    rw [runCreates_cons]
    rcases tryCreate_cases s c.caller c.uri with ⟨e, he⟩ | ⟨-, hok⟩
    · rw [he]
      simpa [successIds, Except.toOption] using ih s
    · rw [hok]
      dsimp only
      obtain ⟨ih1, ih2⟩ :=
        ih ⟨s.owner, s.tokenCounter + 1, (s.tokenCounter, c.caller) :: s.tokens, (s.tokenCounter, c.uri) :: s.tokenURIs⟩
      constructor
      · simpa [successIds, Except.toOption, List.range'_succ] using ih1
      · simp only [successIds, Except.toOption, List.filterMap_cons] at ih2 ⊢
        simp at ih2 ⊢
        omega

/-- Lookups below the starting counter are untouched by any batch of
transactions: later mints only add entries with fresh, larger keys. -/
theorem runCreates_lookup_lt (s : MorphNFT) (calls : List Call) (id : Nat)
    (h : id < s.tokenCounter) :
    (runCreates s calls).2.tokens.lookup id = s.tokens.lookup id ∧
    (runCreates s calls).2.tokenURIs.lookup id = s.tokenURIs.lookup id := by
  induction calls generalizing s with
  | nil => exact ⟨rfl, rfl⟩
  | cons c cs ih =>
    rw [runCreates_cons]
    rcases tryCreate_cases s c.caller c.uri with ⟨e, he⟩ | ⟨-, hok⟩
    · rw [he]; exact ih s h
    · rw [hok]
      dsimp only
      have hne : id ≠ s.tokenCounter := Nat.ne_of_lt h
      obtain ⟨ih1, ih2⟩ :=
        ih ⟨s.owner, s.tokenCounter + 1, (s.tokenCounter, c.caller) :: s.tokens, (s.tokenCounter, c.uri) :: s.tokenURIs⟩
          (Nat.lt_succ_of_lt h)
      have hbeq : (id == s.tokenCounter) = false := beq_eq_false_iff_ne.mpr hne
      simp only [List.lookup_cons, hbeq] at ih1 ih2
      exact ⟨ih1, ih2⟩

/-- The storage invariant: minted identifiers are exactly those below
`tokenCounter`, and each minted identifier has a URI entry. -/
def Inv (s : MorphNFT) : Prop :=
  (∀ id, (s.tokens.lookup id).isSome = true ↔ id < s.tokenCounter) ∧
  (∀ id, (s.tokens.lookup id).isSome = true → (s.tokenURIs.lookup id).isSome = true)

/-- The invariant holds at deployment. -/
theorem inv_deploy (d : Address) : Inv (deployMorphNFT d) := by
  constructor <;> intro id <;> simp [deployMorphNFT]

/-- One `createNFT` transaction preserves the invariant. -/
theorem inv_tryCreate {s : MorphNFT} (c : Address) (u : String) (h : Inv s) :
    Inv (tryCreate s c u).2 := by
  obtain ⟨h1, h2⟩ := h
  rcases tryCreate_cases s c u with ⟨e, he⟩ | ⟨-, hok⟩
  · rw [he]; exact ⟨h1, h2⟩
  · rw [hok]
    constructor
    · intro id
      by_cases hid : id = s.tokenCounter
      · subst hid
        simp [List.lookup_cons]
      · have hbeq : (id == s.tokenCounter) = false := beq_eq_false_iff_ne.mpr hid
        simp only [List.lookup_cons, hbeq]
        rw [h1 id]
        omega
    · intro id
      by_cases hid : id = s.tokenCounter
      · subst hid
        simp [List.lookup_cons]
      · have hbeq : (id == s.tokenCounter) = false := beq_eq_false_iff_ne.mpr hid
        simp only [List.lookup_cons, hbeq]
        exact h2 id

/-- Every state reached by a batch of transactions satisfies the
invariant. -/
theorem inv_runCreates (s : MorphNFT) (calls : List Call) (h : Inv s) :
    Inv (runCreates s calls).2 := by
  induction calls generalizing s with
  | nil => exact h
  | cons c cs ih =>
    rw [runCreates_cons]
    exact ih _ (inv_tryCreate c.caller c.uri h)

/-- If every minted token is owned by the contract owner, this stays so
after any batch of transactions (`createNFT` mints to `msg.sender`, and
`onlyOwner` forces `msg.sender` to be the owner). -/
theorem runCreates_owners_eq (s : MorphNFT) (calls : List Call)
    (h : ∀ id a, s.tokens.lookup id = some a → a = s.owner) :
    ∀ id a, (runCreates s calls).2.tokens.lookup id = some a → a = s.owner := by
  induction calls generalizing s with
  | nil => exact h
  | cons c cs ih =>
    rw [runCreates_cons]
    rcases tryCreate_cases s c.caller c.uri with ⟨e, he⟩ | ⟨hc, hok⟩
    · rw [he]; exact ih s h
    · rw [hok]
      intro id a ha
      have :=
        ih ⟨s.owner, s.tokenCounter + 1, (s.tokenCounter, c.caller) :: s.tokens, (s.tokenCounter, c.uri) :: s.tokenURIs⟩
          ?_ id a ha
      · exact this
      · intro id' a'
        by_cases hid : id' = s.tokenCounter
        · subst hid
          simp only [List.lookup_cons, beq_self_eq_true]
          intro hsome
          cases hsome
          exact hc
        · have hbeq : (id' == s.tokenCounter) = false := beq_eq_false_iff_ne.mpr hid
          simp only [List.lookup_cons, hbeq]
          exact h id' a'

/-! Claim theorems about the contract. -/

/-- C1: from a fresh deployment, the identifiers returned by the
successful `createNFT` calls are exactly `0, 1, 2, ...` in call order
with no gaps or repeats; and every successful call atomically assigns
`tokenId = tokenCounter`, records the caller as owner of `tokenId`,
records the metadata pointer for `tokenId`, and increments `tokenCounter`
by exactly 1. -/
theorem createNFT_sequential_ids_atomic (d : Address) (calls : List Call) :
    successIds (runCreates (deployMorphNFT d) calls).1 =
      List.range (successIds (runCreates (deployMorphNFT d) calls).1).length ∧
    (∀ s c u id s', createNFT s c u = .ok (id, s') →
      id = s.tokenCounter ∧ s'.tokens.lookup id = some c ∧
      s'.tokenURIs.lookup id = some u ∧ s'.tokenCounter = s.tokenCounter + 1) := by
  constructor
  · have h := (runCreates_counter_ids (deployMorphNFT d) calls).1
    rw [List.range_eq_range']
    simpa [deployMorphNFT] using h
  · intro s c u id s' h
    obtain ⟨hc, hid, -, hs⟩ := createNFT_ok_elim h
    subst hid hs
    refine ⟨rfl, ?_, ?_, rfl⟩ <;> simp [List.lookup_cons]

/-- Witness for C1 at a concrete run: calls from owner 7, a rejected call
from 2 in between, returned identifiers `[0, 1]`. -/
theorem createNFT_sequential_ids_atomic_witness :
    (successIds (runCreates (deployMorphNFT 7) [⟨7, "a"⟩, ⟨2, "b"⟩, ⟨7, "c"⟩]).1 =
      List.range
        (successIds (runCreates (deployMorphNFT 7) [⟨7, "a"⟩, ⟨2, "b"⟩, ⟨7, "c"⟩]).1).length) ∧
    createNFT (deployMorphNFT 7) 7 "a" = .ok (0, ⟨7, 1, [(0, 7)], [(0, "a")]⟩) ∧
    (0 = (deployMorphNFT 7).tokenCounter ∧
      (⟨7, 1, [(0, 7)], [(0, "a")]⟩ : MorphNFT).tokens.lookup 0 = some 7 ∧
      (⟨7, 1, [(0, 7)], [(0, "a")]⟩ : MorphNFT).tokenURIs.lookup 0 = some "a" ∧
      (⟨7, 1, [(0, 7)], [(0, "a")]⟩ : MorphNFT).tokenCounter =
        (deployMorphNFT 7).tokenCounter + 1) := by
  refine ⟨(createNFT_sequential_ids_atomic 7 [⟨7, "a"⟩, ⟨2, "b"⟩, ⟨7, "c"⟩]).1, rfl, ?_⟩
  exact (createNFT_sequential_ids_atomic 7 [⟨7, "a"⟩, ⟨2, "b"⟩, ⟨7, "c"⟩]).2 _ 7 "a" 0 _ rfl

/-- C2: a `createNFT` transaction from any caller other than the owner
reverts with the Authorization error and leaves the whole registry state
unchanged. -/
theorem createNFT_nonowner_reverts (s : MorphNFT) (c : Address) (u : String)
    (h : c ≠ s.owner) :
    tryCreate s c u = (.error .Authorization, s) := by
  unfold tryCreate
  rw [createNFT_nonowner h]

/-- Witness for C2: caller 2 against a registry owned by 1 that already
holds token 0; the state (counter, owner entry and URI entry) survives
untouched. -/
theorem createNFT_nonowner_reverts_witness :
    ((2 : Address) ≠ (⟨1, 1, [(0, 1)], [(0, "https://x/1.json")]⟩ : MorphNFT).owner) ∧
    tryCreate ⟨1, 1, [(0, 1)], [(0, "https://x/1.json")]⟩ 2 "https://x/2.json" =
      (.error .Authorization, ⟨1, 1, [(0, 1)], [(0, "https://x/1.json")]⟩) :=
  ⟨by decide, createNFT_nonowner_reverts _ 2 "https://x/2.json" (by decide)⟩

/-- C3: after a successful `createNFT` call returning `id`, every
subsequent `ownerOf` read of `id` returns the calling principal and every
subsequent `tokenURI` read of `id` returns the URI passed to the call,
whatever mix of further (successful or reverted) `createNFT` transactions
happens in between; reads have no storage effect in between either. -/
theorem create_then_reads_stable (s : MorphNFT) (c : Address) (u : String)
    (id : Nat) (s₁ : MorphNFT) (h : createNFT s c u = .ok (id, s₁))
    (later : List Call) :
    ownerOf (runCreates s₁ later).2 id = .ok c ∧
    tokenURI (runCreates s₁ later).2 id = .ok u := by
  obtain ⟨hc, hid, -, hs⟩ := createNFT_ok_elim h
  subst hid hs
  obtain ⟨l1, l2⟩ :=
    runCreates_lookup_lt
      ⟨s.owner, s.tokenCounter + 1, (s.tokenCounter, c) :: s.tokens, (s.tokenCounter, u) :: s.tokenURIs⟩
      later s.tokenCounter (Nat.lt_succ_self _)
  constructor
  · unfold ownerOf
    rw [l1]
    simp [List.lookup_cons]
  · unfold tokenURI
    rw [l1, l2]
    simp [List.lookup_cons]

/-- Witness for C3: mint token 0 with a URI, then run one more successful
create and one rejected create; the reads of token 0 still return the
original owner and URI. -/
theorem create_then_reads_stable_witness :
    createNFT (deployMorphNFT 1) 1 "https://x/1.json" =
      .ok (0, ⟨1, 1, [(0, 1)], [(0, "https://x/1.json")]⟩) ∧
    ownerOf (runCreates (⟨1, 1, [(0, 1)], [(0, "https://x/1.json")]⟩ : MorphNFT)
        [⟨1, "https://x/2.json"⟩, ⟨2, "z"⟩]).2 0 = .ok 1 ∧
    tokenURI (runCreates (⟨1, 1, [(0, 1)], [(0, "https://x/1.json")]⟩ : MorphNFT)
        [⟨1, "https://x/2.json"⟩, ⟨2, "z"⟩]).2 0 = .ok "https://x/1.json" := by
  refine ⟨rfl, ?_, ?_⟩
  · exact (create_then_reads_stable (deployMorphNFT 1) 1 "https://x/1.json" 0 _ rfl
      [⟨1, "https://x/2.json"⟩, ⟨2, "z"⟩]).1
  · exact (create_then_reads_stable (deployMorphNFT 1) 1 "https://x/1.json" 0 _ rfl
      [⟨1, "https://x/2.json"⟩, ⟨2, "z"⟩]).2

/-- C4: in every state reachable from deployment by `createNFT`
transactions, every minted identifier has a URI entry and is below
`tokenCounter`; `tokenCounter` equals the number of successful creations;
and the minted identifiers are exactly `0 .. tokenCounter - 1` (dense and
gapless). -/
theorem registry_invariant (d : Address) (calls : List Call) :
    (∀ id, ((runCreates (deployMorphNFT d) calls).2.tokens.lookup id).isSome = true →
      ((runCreates (deployMorphNFT d) calls).2.tokenURIs.lookup id).isSome = true ∧
      id < (runCreates (deployMorphNFT d) calls).2.tokenCounter) ∧
    (runCreates (deployMorphNFT d) calls).2.tokenCounter =
      (successIds (runCreates (deployMorphNFT d) calls).1).length ∧
    (∀ id, id < (runCreates (deployMorphNFT d) calls).2.tokenCounter →
      ((runCreates (deployMorphNFT d) calls).2.tokens.lookup id).isSome = true) := by
  obtain ⟨h1, h2⟩ := inv_runCreates (deployMorphNFT d) calls (inv_deploy d)
  refine ⟨fun id hid => ⟨h2 id hid, (h1 id).mp hid⟩, ?_, fun id hid => (h1 id).mpr hid⟩
  have h := (runCreates_counter_ids (deployMorphNFT d) calls).2
  simpa [deployMorphNFT] using h

/-- Witness for C4 after two successful creations: token 1 is minted with
a URI entry and below the counter, the counter equals 2 (the number of
successes), and token 0 is minted. -/
theorem registry_invariant_witness :
    (((runCreates (deployMorphNFT 1) [⟨1, "a"⟩, ⟨1, "b"⟩]).2.tokens.lookup 1).isSome = true ∧
      (((runCreates (deployMorphNFT 1) [⟨1, "a"⟩, ⟨1, "b"⟩]).2.tokenURIs.lookup 1).isSome = true ∧
        1 < (runCreates (deployMorphNFT 1) [⟨1, "a"⟩, ⟨1, "b"⟩]).2.tokenCounter)) ∧
    (runCreates (deployMorphNFT 1) [⟨1, "a"⟩, ⟨1, "b"⟩]).2.tokenCounter =
      (successIds (runCreates (deployMorphNFT 1) [⟨1, "a"⟩, ⟨1, "b"⟩]).1).length ∧
    (0 < (runCreates (deployMorphNFT 1) [⟨1, "a"⟩, ⟨1, "b"⟩]).2.tokenCounter ∧
      ((runCreates (deployMorphNFT 1) [⟨1, "a"⟩, ⟨1, "b"⟩]).2.tokens.lookup 0).isSome = true) := by
  refine ⟨⟨by decide, (registry_invariant 1 [⟨1, "a"⟩, ⟨1, "b"⟩]).1 1 (by decide)⟩,
    (registry_invariant 1 [⟨1, "a"⟩, ⟨1, "b"⟩]).2.1,
    by decide, (registry_invariant 1 [⟨1, "a"⟩, ⟨1, "b"⟩]).2.2 0 (by decide)⟩

/-- C5: in every reachable registry state, reading `ownerOf` or
`tokenURI` of any identifier at or above `tokenCounter` (an identifier
never assigned by a successful create) fails with the NotFound error;
both are pure reads with no storage effect. -/
theorem reads_out_of_range_notFound (d : Address) (calls : List Call) (id : Nat)
    (h : (runCreates (deployMorphNFT d) calls).2.tokenCounter ≤ id) :
    ownerOf (runCreates (deployMorphNFT d) calls).2 id = .error .NotFound ∧
    tokenURI (runCreates (deployMorphNFT d) calls).2 id = .error .NotFound := by
  obtain ⟨h1, -⟩ := inv_runCreates (deployMorphNFT d) calls (inv_deploy d)
  have hnone : (runCreates (deployMorphNFT d) calls).2.tokens.lookup id = none := by
    cases hcase : (runCreates (deployMorphNFT d) calls).2.tokens.lookup id with
    | none => rfl
    | some a =>
      have : id < (runCreates (deployMorphNFT d) calls).2.tokenCounter :=
        (h1 id).mp (by rw [hcase]; rfl)
      omega
  constructor
  · unfold ownerOf
    rw [hnone]
  · unfold tokenURI
    rw [hnone]
    rfl

/-- Witness for C5: after one successful creation the counter is 1, and
reading token 5 fails with NotFound on both reads. -/
theorem reads_out_of_range_notFound_witness :
    ((runCreates (deployMorphNFT 1) [⟨1, "a"⟩]).2.tokenCounter ≤ 5) ∧
    ownerOf (runCreates (deployMorphNFT 1) [⟨1, "a"⟩]).2 5 = .error .NotFound ∧
    tokenURI (runCreates (deployMorphNFT 1) [⟨1, "a"⟩]).2 5 = .error .NotFound := by
  refine ⟨by decide, (reads_out_of_range_notFound 1 [⟨1, "a"⟩] 5 (by decide)).1,
    (reads_out_of_range_notFound 1 [⟨1, "a"⟩] 5 (by decide)).2⟩

/-- C9: `createNFT` takes no recipient argument and mints to the caller,
and the caller of a successful call is forced to be the owner; hence in
every state reachable from deployment by creates alone, the registry's
owner slot still holds the deployer and every minted token is owned by
that principal. -/
theorem minted_owner_is_registry_owner (d : Address) (calls : List Call) :
    (runCreates (deployMorphNFT d) calls).2.owner = d ∧
    (∀ id a, (runCreates (deployMorphNFT d) calls).2.tokens.lookup id = some a → a = d) ∧
    (∀ s c u id s', createNFT s c u = .ok (id, s') →
      c = s.owner ∧ s'.tokens.lookup id = some c) := by
  refine ⟨runCreates_owner _ _, ?_, ?_⟩
  · exact runCreates_owners_eq (deployMorphNFT d) calls
      (by intro id a ha; simp [deployMorphNFT] at ha)
  · intro s c u id s' h
    obtain ⟨hc, hid, -, hs⟩ := createNFT_ok_elim h
    subst hid hs
    exact ⟨hc, by simp [List.lookup_cons]⟩

/-- Witness for C9: registry deployed by 9, one creation; token 0 is
owned by 9, and the concrete successful call minted to its caller. -/
theorem minted_owner_is_registry_owner_witness :
    (runCreates (deployMorphNFT 9) [⟨9, "a"⟩]).2.owner = 9 ∧
    ((runCreates (deployMorphNFT 9) [⟨9, "a"⟩]).2.tokens.lookup 0 = some 9 ∧ (9 : Address) = 9) ∧
    (createNFT (deployMorphNFT 9) 9 "a" = .ok (0, ⟨9, 1, [(0, 9)], [(0, "a")]⟩) ∧
      ((9 : Address) = (deployMorphNFT 9).owner ∧
        (⟨9, 1, [(0, 9)], [(0, "a")]⟩ : MorphNFT).tokens.lookup 0 = some 9)) := by
  refine ⟨(minted_owner_is_registry_owner 9 [⟨9, "a"⟩]).1,
    ⟨by decide, (minted_owner_is_registry_owner 9 [⟨9, "a"⟩]).2.1 0 9 (by decide)⟩,
    rfl, (minted_owner_is_registry_owner 9 [⟨9, "a"⟩]).2.2 _ 9 "a" 0 _ rfl⟩

/-- C10: `tokenCounter` is a `uint256` updated with Solidity 0.8 checked
arithmetic, so a `createNFT` transaction in a state whose counter sits at
`2 ^ 256 - 1` always reverts and leaves storage unchanged: the counter is
never wrapped and no identifier is ever reused. -/
theorem createNFT_counter_never_wraps (s : MorphNFT) (c : Address) (u : String)
    (h : s.tokenCounter = UINT256_MOD - 1) :
    (∃ e, (tryCreate s c u).1 = .error e) ∧ (tryCreate s c u).2 = s := by
  cases hres : createNFT s c u with
  | error e =>
    unfold tryCreate
    rw [hres]
    exact ⟨⟨e, rfl⟩, rfl⟩
  | ok p =>
    obtain ⟨id, s'⟩ := p
    obtain ⟨-, -, hbound, -⟩ := createNFT_ok_elim hres
    have hpos : 1 ≤ UINT256_MOD := Nat.one_le_two_pow
    exact absurd hbound (by omega)

/-- Witness for C10: an owner-called create against a registry whose
counter sits at the `uint256` maximum reverts with storage unchanged. -/
theorem createNFT_counter_never_wraps_witness :
    ((⟨1, UINT256_MOD - 1, [], []⟩ : MorphNFT).tokenCounter = UINT256_MOD - 1) ∧
    (∃ e, (tryCreate ⟨1, UINT256_MOD - 1, [], []⟩ 1 "x").1 = .error e) ∧
    (tryCreate ⟨1, UINT256_MOD - 1, [], []⟩ 1 "x").2 = ⟨1, UINT256_MOD - 1, [], []⟩ :=
  ⟨rfl, createNFT_counter_never_wraps ⟨1, UINT256_MOD - 1, [], []⟩ 1 "x" rfl⟩

/-! Model of the client scripts `scripts/deploy.js` and `scripts/mint.js`.

Each script is an `async function main` performing a fixed sequence of
awaited actions, followed by `main().catch((error) => ...)` which prints
the error with `console.error` and sets `process.exitCode = 1`; the exit
code otherwise defaults to 0. -/

/-- The atomic awaited actions appearing in the two client scripts. -/
inductive ScriptStep where
  /-- `await ethers.getSigners()`. -/
  | getSigners
  /-- `await ethers.getContractFactory(name)`. -/
  | getContractFactory (name : String)
  /-- `await NFTContract.deploy()`: sends the deployment transaction; in
  ethers v6 this resolves once the transaction is sent, without waiting
  for it to be mined (that would be `waitForDeployment`). -/
  | sendDeployTx
  /-- `await nft.waitForDeployment()`: waits until the network confirms
  the deployment. Present in the model's vocabulary; the deploy script
  never performs it. -/
  | waitForDeployment
  /-- `await ethers.getContractAt(name, addr)`. -/
  | getContractAt (name addr : String)
  /-- `await NFTContract.createNFT(uri)`: sends the mint transaction. -/
  | sendCreateTx (uri : String)
  /-- `await tx.wait()`: waits until the network confirms the
  transaction. -/
  | waitForTx
  /-- `console.log(msg, ...)`. -/
  | consoleLog (msg : String)
deriving DecidableEq, Repr

/-- `scripts/deploy.js`, its `main` body statement by statement. -/
def deployScriptSteps : List ScriptStep :=
  [ .getSigners
  , .consoleLog "Deploying contracts with the account:"
  , .getContractFactory "MorphNFT"
  , .sendDeployTx
  , .consoleLog "NFT Contract deployed to:" ]

/-- `scripts/mint.js`, its `main` body statement by statement. -/
def mintScriptSteps : List ScriptStep :=
  [ .getSigners
  , .getContractAt "MorphNFT" "0x77778EBa8Ed0f023B1f62C7dFBf0D5DE210B0dd3"
  , .sendCreateTx "https://your-nft-metadata-uri.com/metadata.json"
  , .waitForTx
  , .consoleLog "NFT minted with URI:" ]

/-- Does a step wait for the network to confirm anything? -/
def waitsForConfirmation : ScriptStep → Bool
  | .waitForDeployment => true
  | .waitForTx => true
  | _ => false

/-- Is a step the report of the deployed contract's address to the
user? -/
def reportsDeployedAddress : ScriptStep → Bool
  | .consoleLog m => m == "NFT Contract deployed to:"
  | _ => false

/-- Run the `async main` body against an environment assigning each step
an outcome: steps execute in order and a rejected await aborts the rest
of the body (JS async/await propagation). Returns the executed steps and
the overall result. -/
def runMain (eff : ScriptStep → Except String Unit) :
    List ScriptStep → List ScriptStep × Except String Unit
  | [] => ([], .ok ())
  | st :: rest =>
    match eff st with
    | .error e => ([st], .error e)
    | .ok _ =>
      let (done, r) := runMain eff rest
      (st :: done, r)

/-- Observable outcome of one script process: the arguments passed to
`console.error` and the process exit status. -/
structure ProcessOutcome where
  printedErrors : List String
  exitCode : Nat
deriving DecidableEq, Repr

/-- The whole script: `main().catch((error) => ...)` prints a caught
error once and sets `process.exitCode = 1`; with no error the process
exits with the default status 0. -/
def runClientScript (eff : ScriptStep → Except String Unit)
    (steps : List ScriptStep) : ProcessOutcome :=
  match (runMain eff steps).2 with
  | .ok _ => { printedErrors := [], exitCode := 0 }
  | .error e => { printedErrors := [e], exitCode := 1 }

/-- Unfolding `runMain` one step at a time. -/
theorem runMain_cons (eff : ScriptStep → Except String Unit) (st : ScriptStep)
    (rest : List ScriptStep) :
    runMain eff (st :: rest) =
      match eff st with
      | .error e => ([st], .error e)
      | .ok _ => (st :: (runMain eff rest).1, (runMain eff rest).2) := by
  cases h : eff st <;> simp [runMain, h]

/-- The executed steps are a sublist of the script: no step ever runs
twice and no retry happens. -/
theorem runMain_no_retry (eff : ScriptStep → Except String Unit)
    (steps : List ScriptStep) : (runMain eff steps).1.Sublist steps := by
  induction steps with
  | nil => exact List.Sublist.refl _
  | cons st rest ih =>
    rw [runMain_cons]
    cases h : eff st
    · exact List.Sublist.cons₂ st (List.nil_sublist rest)
    · exact List.Sublist.cons₂ st ih

/-- If every step of the body succeeds, `main` resolves. -/
theorem runMain_all_ok (eff : ScriptStep → Except String Unit)
    (steps : List ScriptStep) (h : ∀ st ∈ steps, eff st = .ok ()) :
    runMain eff steps = (steps, .ok ()) := by
  induction steps with
  | nil => rfl
  | cons st rest ih =>
    rw [runMain_cons, h st (List.mem_cons_self st rest)]
    rw [ih fun s hs => h s (List.mem_cons_of_mem st hs)]

/-- An error thrown at any executed step is the one `main` rejects
with. -/
theorem runMain_error_of_mem (eff : ScriptStep → Except String Unit)
    (steps : List ScriptStep) (st : ScriptStep) (e : String)
    (hmem : st ∈ (runMain eff steps).1) (herr : eff st = .error e) :
    (runMain eff steps).2 = .error e := by
  induction steps with
  | nil => simp [runMain] at hmem
  | cons s₀ rest ih =>
    rw [runMain_cons] at hmem ⊢
    cases h : eff s₀ with
    | error e₀ =>
      rw [h] at hmem
      simp at hmem
      subst hmem
      rw [herr] at h
      cases h
      rfl
    | ok _ =>
      rw [h] at hmem
      simp at hmem
      rcases hmem with hmem | hmem
      · subst hmem
        rw [herr] at h
        cases h
      · exact ih hmem

/-- C6 fails as stated: `scripts/deploy.js` contains no step at all that
waits for the network to confirm the instantiation (no
`waitForDeployment`), so in particular it does not wait for confirmation
before reporting the deployed address. -/
theorem deploy_script_no_wait_ce :
    ¬ ∃ st ∈ deployScriptSteps, waitsForConfirmation st = true := by decide

/-- C6 (amended): the deploy script sends the instantiation transaction
and reports the resulting address (with no confirmation wait in between
or anywhere else); on any failure the error is printed and the process
terminates with exit status 1, executing each step at most once, in
order, with no retry. -/
theorem deploy_script_behavior (eff : ScriptStep → Except String Unit) :
    (∀ st ∈ deployScriptSteps, waitsForConfirmation st = false) ∧
    deployScriptSteps[3]? = some .sendDeployTx ∧
    deployScriptSteps[4]? = some (.consoleLog "NFT Contract deployed to:") ∧
    reportsDeployedAddress (.consoleLog "NFT Contract deployed to:") = true ∧
    (∀ e, (runMain eff deployScriptSteps).2 = .error e →
      runClientScript eff deployScriptSteps = ⟨[e], 1⟩) ∧
    (runMain eff deployScriptSteps).1.Sublist deployScriptSteps := by
  refine ⟨by decide, by decide, by decide, by decide, ?_, runMain_no_retry eff deployScriptSteps⟩
  intro e he
  unfold runClientScript
  rw [he]

/-- Witness for C6: a deployment transaction rejected by the network is
printed and yields exit status 1; the executed steps form a sublist of
the script. -/
theorem deploy_script_behavior_witness :
    (ScriptStep.sendDeployTx ∈ deployScriptSteps ∧
      waitsForConfirmation .sendDeployTx = false) ∧
    (runMain (fun st => if st = ScriptStep.sendDeployTx then (.error "rejected transaction" : Except String Unit) else .ok ())
        deployScriptSteps).2 = .error "rejected transaction" ∧
    runClientScript (fun st => if st = ScriptStep.sendDeployTx then (.error "rejected transaction" : Except String Unit) else .ok ())
        deployScriptSteps = ⟨["rejected transaction"], 1⟩ ∧
    (runMain (fun st => if st = ScriptStep.sendDeployTx then (.error "rejected transaction" : Except String Unit) else .ok ())
        deployScriptSteps).1.Sublist deployScriptSteps := by
  refine ⟨⟨by decide, ?_⟩, rfl, ?_, ?_⟩
  · exact (deploy_script_behavior fun _ => .ok ()).1 .sendDeployTx (by decide)
  · exact (deploy_script_behavior _).2.2.2.2.1 "rejected transaction" rfl
  · exact (deploy_script_behavior _).2.2.2.2.2

/-- C7: for both client scripts, a run in which every awaited step
succeeds prints no error and exits with status 0; an error thrown at any
executed step is caught exactly once by the single top-level catch,
printed exactly once, and makes the process exit with status 1. -/
theorem client_scripts_error_policy (eff : ScriptStep → Except String Unit) :
    ((∀ st ∈ deployScriptSteps, eff st = .ok ()) →
      runClientScript eff deployScriptSteps = ⟨[], 0⟩) ∧
    (∀ st e, st ∈ (runMain eff deployScriptSteps).1 → eff st = .error e →
      runClientScript eff deployScriptSteps = ⟨[e], 1⟩) ∧
    ((∀ st ∈ mintScriptSteps, eff st = .ok ()) →
      runClientScript eff mintScriptSteps = ⟨[], 0⟩) ∧
    (∀ st e, st ∈ (runMain eff mintScriptSteps).1 → eff st = .error e →
      runClientScript eff mintScriptSteps = ⟨[e], 1⟩) := by
  refine ⟨fun h => ?_, fun st e hmem herr => ?_, fun h => ?_, fun st e hmem herr => ?_⟩
  · unfold runClientScript
    rw [runMain_all_ok eff deployScriptSteps h]
  · unfold runClientScript
    rw [runMain_error_of_mem eff deployScriptSteps st e hmem herr]
  · unfold runClientScript
    rw [runMain_all_ok eff mintScriptSteps h]
  · unfold runClientScript
    rw [runMain_error_of_mem eff mintScriptSteps st e hmem herr]

/-- Witness for C7: an all-successful run of each script exits with 0 and
prints nothing; a mint run whose `tx.wait()` rejects prints that error
once and exits with 1. -/
theorem client_scripts_error_policy_witness :
    runClientScript (fun _ => .ok ()) deployScriptSteps = ⟨[], 0⟩ ∧
    runClientScript (fun _ => .ok ()) mintScriptSteps = ⟨[], 0⟩ ∧
    (ScriptStep.waitForTx ∈
        (runMain (fun st => if st = ScriptStep.waitForTx then (.error "tx rejected" : Except String Unit) else .ok ())
          mintScriptSteps).1 ∧
      (fun st => if st = ScriptStep.waitForTx then (.error "tx rejected" : Except String Unit) else .ok ())
          ScriptStep.waitForTx = .error "tx rejected") ∧
    runClientScript (fun st => if st = ScriptStep.waitForTx then (.error "tx rejected" : Except String Unit) else .ok ())
        mintScriptSteps = ⟨["tx rejected"], 1⟩ := by
  refine ⟨(client_scripts_error_policy _).1 fun st _ => rfl,
    (client_scripts_error_policy _).2.2.1 fun st _ => rfl,
    ⟨by decide, rfl⟩,
    (client_scripts_error_policy _).2.2.2 .waitForTx "tx rejected" (by decide) rfl⟩

/-! Model of the viewer `morph-nft-frontend/src/App.js`. -/

/-- How an ethers `Contract` handle is connected: with a read-only
provider, or with a signer obtained from the user's wallet (a handle
capable of sending state-changing transactions). -/
inductive HandleKind where
  | providerReadOnly
  | signerConnected
deriving DecidableEq, Repr

/-- The hardcoded registry address in `App.js`. -/
def contractAddress : String := "0x77778EBa8Ed0f023B1f62C7dFBf0D5DE210B0dd3"

/-- `App.js` builds its handle as `new ethers.Contract(contractAddress,
NFTContractABI, signer)` where `signer = await provider.getSigner()`. -/
def viewerHandleKind : HandleKind := .signerConnected

/-- React state of the viewer component: the `nftURI` hook. -/
structure AppState where
  nftURI : String
deriving DecidableEq, Repr

/-- `useState("")`. -/
def initialAppState : AppState := { nftURI := "" }

/-- `getNFTData`: awaits `contract.tokenURI(0)` and stores the returned
string with `setNFTURI`; a rejected await aborts the handler before
`setNFTURI` runs, leaving the state unchanged (the failure surfaces only
through the platform's default rejection reporting). Returns the new
state together with the token identifiers fetched. -/
def getNFTData (readTokenURI : Nat → Except String String) (s : AppState) :
    AppState × List Nat :=
  match readTokenURI 0 with
  | .ok uri => ({ nftURI := uri }, [0])
  | .error _ => (s, [0])

/-- UI events of the viewer page. -/
inductive UIEvent where
  | pageLoad
  | fetchButtonClick
deriving DecidableEq, Repr

/-- Event dispatch from the JSX: only the button's `onClick` runs
`getNFTData`; the component has no effect hook, so nothing is fetched on
load. -/
def handleUIEvent (readTokenURI : Nat → Except String String) (s : AppState) :
    UIEvent → AppState × List Nat
  | .pageLoad => (s, [])
  | .fetchButtonClick => getNFTData readTokenURI s

/-- The paragraph the page renders: `nftURI && <p>NFT URI: ...</p>`. -/
def renderNFTURI (s : AppState) : List String :=
  if s.nftURI = "" then [] else ["NFT URI: " ++ s.nftURI]

/-- C8 fails as stated: the contract handle the viewer constructs is
connected through the wallet signer, not read-only. -/
theorem viewer_handle_not_readonly_ce :
    viewerHandleKind ≠ HandleKind.providerReadOnly := by decide

/-- C8 (amended): the viewer fetches only on the explicit button click
(never on load), targets the fixed hardcoded registry address through a
signer-connected (not read-only) handle, reads `tokenURI(0)`, stores and
displays exactly the returned string on success, and leaves the displayed
value unchanged when the read fails. -/
theorem viewer_fetch_behavior (readTokenURI : Nat → Except String String) (s : AppState) :
    handleUIEvent readTokenURI s .pageLoad = (s, []) ∧
    viewerHandleKind = .signerConnected ∧
    contractAddress = "0x77778EBa8Ed0f023B1f62C7dFBf0D5DE210B0dd3" ∧
    (∀ u, readTokenURI 0 = .ok u →
      handleUIEvent readTokenURI s .fetchButtonClick = ({ nftURI := u }, [0])) ∧
    (∀ u, readTokenURI 0 = .ok u → u ≠ "" →
      renderNFTURI (handleUIEvent readTokenURI s .fetchButtonClick).1 = ["NFT URI: " ++ u]) ∧
    (∀ e, readTokenURI 0 = .error e →
      handleUIEvent readTokenURI s .fetchButtonClick = (s, [0])) := by
  refine ⟨rfl, rfl, rfl, fun u hu => ?_, fun u hu hne => ?_, fun e he => ?_⟩
  · simp [handleUIEvent, getNFTData, hu]
  · simp [handleUIEvent, getNFTData, renderNFTURI, hu, hne]
  · simp [handleUIEvent, getNFTData, he]

/-- Witness for C8: a successful read of a nonempty URI is stored and
rendered; a failed read leaves the initial state unchanged. -/
theorem viewer_fetch_behavior_witness :
    handleUIEvent (fun _ => .ok "https://x/1.json") initialAppState .pageLoad =
      (initialAppState, []) ∧
    ((fun _ => (.ok "https://x/1.json" : Except String String)) 0 = .ok "https://x/1.json" ∧
      handleUIEvent (fun _ => .ok "https://x/1.json") initialAppState .fetchButtonClick =
        ({ nftURI := "https://x/1.json" }, [0])) ∧
    renderNFTURI (handleUIEvent (fun _ => .ok "https://x/1.json") initialAppState
        .fetchButtonClick).1 = ["NFT URI: " ++ "https://x/1.json"] ∧
    ((fun _ => (.error "rpc unreachable" : Except String String)) 0 = .error "rpc unreachable" ∧
      handleUIEvent (fun _ => .error "rpc unreachable") initialAppState .fetchButtonClick =
        (initialAppState, [0])) := by
  refine ⟨(viewer_fetch_behavior _ initialAppState).1,
    ⟨rfl, (viewer_fetch_behavior _ initialAppState).2.2.2.1 "https://x/1.json" rfl⟩,
    (viewer_fetch_behavior _ initialAppState).2.2.2.2.1 "https://x/1.json" rfl (by decide),
    rfl, (viewer_fetch_behavior _ initialAppState).2.2.2.2.2 "rpc unreachable" rfl⟩

end MorphNft
